import Mathlib

/-!
Shallow embedding of `src/generate_report.py`: the record extractor
`extract_competitor_updates`, the delta classifier `detect_deltas`, and the
digest renderer `format_email_html`, together with proofs of the
specification claims about them.

Python strings are modelled as `String` / `List Char`.  Python dicts, which
preserve insertion order and replace the value in place when a key is
re-assigned, are modelled as association lists with an explicit
`dictInsert`.  The two regular expressions of the source are embedded as
deterministic matchers over `List Char` that reproduce CPython's leftmost
match and greedy-with-backtracking semantics for exactly these patterns.
-/

/-- ASCII whitespace: the characters matched by CPython's `\s` class and
stripped by `str.strip()` on the ASCII inputs this program handles. -/
def isPySpace (c : Char) : Bool :=
  c == ' ' || c == '\t' || c == '\n' || c == '\r' || c == '\x0b' || c == '\x0c'

/-- Python `str.strip()`: drop leading and trailing whitespace. -/
def pyStrip (cs : List Char) : List Char :=
  ((cs.dropWhile isPySpace).reverse.dropWhile isPySpace).reverse

/-- Python `str.strip()` packaged on `String`. -/
def pyStripS (s : String) : String :=
  String.mk (pyStrip s.data)

/-- The character class `[^*#\n]` of the heading capture group. -/
def headCaptureOk (c : Char) : Bool :=
  !(c == '*' || c == '#' || c == '\n')

/-- Match `([^*#\n]+)\*\*?` at the head of `cs`: a non-empty greedy capture
followed by one or two literal asterisks (the trailing `\*\*?` is greedy and
nothing follows it in the pattern).  Because the capture class excludes `*`,
the maximal capture is the only candidate: shrinking it leaves a non-`*`
character where the trailing `\*` is required. -/
def headCapture (cs : List Char) : Option (List Char × List Char) :=
  let cap := cs.takeWhile headCaptureOk
  if cap.isEmpty then none
  else
    match cs.drop cap.length with
    | '*' :: '*' :: rest => some (cap, rest)
    | '*' :: rest => some (cap, rest)
    | _ => none

/-- Match `\*\*?([^*#\n]+)\*\*?` at the head of `cs`.  The leading `\*\*?`
greedily takes two asterisks when available; backtracking it to a single
asterisk can never help, because the capture class excludes `*`. -/
def headStars (cs : List Char) : Option (List Char × List Char) :=
  match cs with
  | '*' :: '*' :: rest => headCapture rest
  | '*' :: rest => headCapture rest
  | _ => none

/-- Match the section-heading pattern `##\s+\*\*?([^*#\n]+)\*\*?`
(line 99 of the source) at the head of `cs`, returning the capture group
and the text after the match.  `\s+` is taken maximally: shrinking it would
leave a whitespace character where an asterisk is required. -/
def headTryMatch (cs : List Char) : Option (List Char × List Char) :=
  match cs with
  | '#' :: '#' :: rest =>
    let ws := rest.takeWhile isPySpace
    if ws.isEmpty then none else headStars (rest.drop ws.length)
  | _ => none

/-- `re.split` for the section-heading pattern: scan left to right, and at
each match emit the text before it and the capture group.  The fuel
argument (always instantiated with the length of the text) bounds the
recursion; every step consumes at least one character, so the fuel branch
returns the unscanned remainder only when the scan is already complete. -/
def reSplitAux : Nat → List Char → List Char → List String
  | 0, acc, rest => [String.mk (acc.reverse ++ rest)]
  | _ + 1, acc, [] => [String.mk acc.reverse]
  | n + 1, acc, c :: rest =>
    match headTryMatch (c :: rest) with
    | some (cap, after) =>
      String.mk acc.reverse :: String.mk cap :: reSplitAux n [] after
    | none => reSplitAux n (c :: acc) rest

/-- `sections = re.split(r'##\s+\*\*?([^*#\n]+)\*\*?', report_text)`. -/
def reSplit (s : String) : List String :=
  reSplitAux s.data.length [] s.data

/-- Consecutive pairs starting at index 1: the loop
`for i in range(1, len(sections), 2)` guarded by `if i+1 < len(sections)`,
collecting `(sections[i], sections[i+1])`. -/
def pairUp : List String → List (String × String)
  | b :: c :: rest => (b, c) :: pairUp rest
  | _ => []

/-- The heading/body pairs of the split: `sections[0]` is the text before
the first heading and is discarded. -/
def sectionPairs (l : List String) : List (String × String) :=
  match l with
  | _ :: rest => pairUp rest
  | [] => []

/-- The character class `[^\]\n]` of the feature capture group. -/
def featCaptureOk (c : Char) : Bool :=
  !(c == ']' || c == '\n')

/-- Match `\[?([^\]\n]+)` at the head of `cs`.  The optional bracket is
tried first (greedy); if the capture after it would be empty, the regex
backtracks and the bracket itself opens the capture, which is then the
single character `[`. -/
def featBracket (cs : List Char) : Option (List Char) :=
  match cs with
  | '[' :: rest =>
    if (rest.takeWhile featCaptureOk).isEmpty then some ['[']
    else some (rest.takeWhile featCaptureOk)
  | rest =>
    if (rest.takeWhile featCaptureOk).isEmpty then none
    else some (rest.takeWhile featCaptureOk)

/-- Match `\s*\[?([^\]\n]+)` at the head of `cs`: `\s*` is greedy, and on
failure of the remainder it backs off one whitespace character at a time. -/
def featAfterSpaces : List Char → Option (List Char)
  | [] => featBracket []
  | c :: rest =>
    if isPySpace c then
      match featAfterSpaces rest with
      | some cap => some cap
      | none => featBracket (c :: rest)
    else featBracket (c :: rest)

/-- The literal part `\*\*New Feature:\*\*` of the feature pattern. -/
def featLabel : List Char :=
  "**New Feature:**".data

/-- `re.search(r'\*\*New Feature:\*\*\s*\[?([^\]\n]+)', content)` (line 107
of the source), returning capture group 1 of the leftmost match. -/
def featureSearch : List Char → Option (List Char)
  | [] => none
  | c :: rest =>
    if featLabel.isPrefixOf (c :: rest) then
      match featAfterSpaces ((c :: rest).drop featLabel.length) with
      | some cap => some cap
      | none => featureSearch rest
    else featureSearch rest

/-- The module-level `COMPETITORS` list of the source. -/
def COMPETITORS : List String :=
  ["Booking.com", "Expedia", "Trip.com", "Trivago", "Airbnb", "Agoda",
   "eDreams ODIGEO", "Kayak"]

/-- One value of the `updates` dict: the record
`{'feature': ..., 'content': ...}` built for a competitor section. -/
structure CompetitorData where
  feature : String
  content : String
deriving DecidableEq, Repr

/-- Python dict assignment `d[k] = v` on an insertion-ordered dict: if the
key is present its value is replaced in place, otherwise the pair is
appended. -/
def dictInsert (d : List (String × CompetitorData)) (k : String)
    (v : CompetitorData) : List (String × CompetitorData) :=
  if d.any (fun p => p.1 == k) then
    d.map (fun p => if p.1 == k then (k, v) else p)
  else d ++ [(k, v)]

/-- Python dict lookup `d[k]` (as an option; also `k in d` via `isSome`). -/
def lookup? (d : List (String × CompetitorData)) (k : String) :
    Option CompetitorData :=
  (d.find? (fun p => p.1 == k)).map Prod.snd

/-- The guard `if feature_match or competitor in COMPETITORS` for one
heading/body section. -/
def qualifies (sec : String × String) : Bool :=
  (featureSearch sec.2.data).isSome || decide (pyStripS sec.1 ∈ COMPETITORS)

/-- `content.strip()[:500]`: the bounded excerpt stored for a section. -/
def excerptOf (content : String) : String :=
  String.mk ((pyStrip content.data).take 500)

/-- The record stored for a qualifying section:
`feature_match.group(1) if feature_match else 'N/A'` and the bounded
excerpt. -/
def recordOf (sec : String × String) : CompetitorData :=
  { feature :=
      match featureSearch sec.2.data with
      | some g => String.mk g
      | none => "N/A"
    content := excerptOf sec.2 }

/-- One iteration of the extraction loop (lines 101-113 of the source). -/
def extractStep (updates : List (String × CompetitorData))
    (sec : String × String) : List (String × CompetitorData) :=
  if qualifies sec then dictInsert updates (pyStripS sec.1) (recordOf sec)
  else updates

/-- `extract_competitor_updates(report_text)` (lines 93-115): split the
document into heading/body sections and build the ordered dict of
competitor records. -/
def extract_competitor_updates (report_text : String) :
    List (String × CompetitorData) :=
  (sectionPairs (reSplit report_text)).foldl extractStep []

/-- One element of `deltas['new']`. -/
structure DeltaItem where
  competitor : String
  data : CompetitorData
deriving DecidableEq, Repr

/-- One element of `deltas['updated']`. -/
structure UpdatedItem where
  competitor : String
  data : CompetitorData
  previous : String
deriving DecidableEq, Repr

/-- The `deltas` dict of lists built by `detect_deltas`. -/
structure Deltas where
  new : List DeltaItem
  updated : List UpdatedItem
  unchanged : List String
deriving DecidableEq, Repr

/-- The body of the classification loop (lines 128-138).  Every record
stored by the extractor has a `'feature'` key, so
`previous_updates[competitor].get('feature', ...)` is that record's
feature. -/
def classifyStep (previous_updates : List (String × CompetitorData))
    (deltas : Deltas) (kv : String × CompetitorData) : Deltas :=
  match lookup? previous_updates kv.1 with
  | none => { deltas with new := deltas.new ++ [⟨kv.1, kv.2⟩] }
  | some pd =>
    if kv.2.feature ≠ pd.feature then
      { deltas with updated := deltas.updated ++ [⟨kv.1, kv.2, pd.feature⟩] }
    else { deltas with unchanged := deltas.unchanged ++ [kv.1] }

/-- `detect_deltas(current_report, previous_report)` (lines 117-140): the
classification loop over `current_updates`, where `previous_updates` is
`extract_competitor_updates(previous_report) if previous_report else {}`
(the Python guard tests string non-emptiness). -/
def detect_deltas (current_report previous_report : String) : Deltas :=
  (extract_competitor_updates current_report).foldl
    (classifyStep
      (if previous_report ≠ "" then
        extract_competitor_updates previous_report
      else []))
    ⟨[], [], []⟩

/-! ### The digest renderer `format_email_html` (lines 142-228)

The Python function assembles the payload by `+=` of f-string template
pieces; the constants below are those pieces verbatim (with `\x7b`/`\x7d`
denoting the literal braces that Python's `{{`/`}}` escapes produce), cut
at the interpolation points so that each interpolated value appears as an
explicit `++` operand. -/

/-- The header f-string up to the `report_date` interpolation point,
including the full `<style>` block. -/
def htmlHead : String :=
  "\n    <!DOCTYPE html>\n    <html>\n    <head>\n        <style>\n            body \x7b font-family: Arial, sans-serif; line-height: 1.6; color: #333; max-width: 800px; margin: 0 auto; padding: 20px; \x7d\n            .header \x7b background: linear-gradient(135deg, #667eea 0%, #764ba2 100%); color: white; padding: 30px; border-radius: 8px; margin-bottom: 30px; \x7d\n            .header h1 \x7b margin: 0; font-size: 24px; \x7d\n            .summary \x7b background: #f7fafc; border-left: 4px solid #667eea; padding: 20px; margin-bottom: 30px; \x7d\n            .competitor \x7b margin-bottom: 30px; border: 1px solid #e2e8f0; border-radius: 8px; overflow: hidden; \x7d\n            .competitor-header \x7b background: #2d3748; color: white; padding: 15px; font-weight: 600; \x7d\n            .competitor-content \x7b padding: 20px; \x7d\n            .badge \x7b background: #48bb78; color: white; padding: 4px 12px; border-radius: 12px; font-size: 11px; margin-left: 10px; \x7d\n            .badge-updated \x7b background: #ed8936; \x7d\n            .no-changes \x7b text-align: center; padding: 60px; background: #f7fafc; border-radius: 8px; \x7d\n        </style>\n    </head>\n    <body>\n        <div class=\"header\">\n            <h1>📊 Weekly AI Competitive Intelligence: Delta Report</h1>\n            <p>"

/-- The header f-string after the `report_date` interpolation point. -/
def htmlAfterDate : String :=
  "</p>\n        </div>\n    "

/-- The summary f-string up to the first count. -/
def summaryPre : String :=
  "\n        <div class=\"summary\">\n            <strong>📈 This Week\x27s Summary</strong><br>\n            <p>🆕 "

/-- The summary f-string between the first and second counts. -/
def summaryMid1 : String :=
  "<br>\n            🔄 "

/-- The summary f-string between the second and third counts. -/
def summaryMid2 : String :=
  "<br>\n            ✅ "

/-- The summary f-string after the third count. -/
def summaryClose : String :=
  "</p>\n        </div>\n        "

/-- The summary block with its three labelled counts (lines 172-179). -/
def summaryBlock (deltas : Deltas) : String :=
  summaryPre ++ "New Updates: " ++ toString deltas.new.length ++
    summaryMid1 ++ "Feature Changes: " ++ toString deltas.updated.length ++
    summaryMid2 ++ "Unchanged: " ++ toString deltas.unchanged.length ++
    summaryClose

/-- One detail block for a New entity (lines 182-194). -/
def newBlock (item : DeltaItem) : String :=
  "\n            <div class=\"competitor\">\n                <div class=\"competitor-header\">\n                    "
    ++ item.competitor ++
    "\n                    <span class=\"badge\">🆕 NEW</span>\n                </div>\n                <div class=\"competitor-content\">\n                    <strong>Feature:</strong> "
    ++ item.data.feature ++ "<br><br>\n                    "
    ++ String.mk (item.data.content.data.take 300) ++
    "...\n                </div>\n            </div>\n            "

/-- One detail block for an Updated entity (lines 197-210). -/
def updatedBlock (item : UpdatedItem) : String :=
  "\n            <div class=\"competitor\">\n                <div class=\"competitor-header\">\n                    "
    ++ item.competitor ++
    "\n                    <span class=\"badge badge-updated\">🔄 UPDATED</span>\n                </div>\n                <div class=\"competitor-content\">\n                    <strong>New Feature:</strong> "
    ++ item.data.feature ++ "<br>\n                    <strong>Previous:</strong> "
    ++ item.previous ++ "<br><br>\n                    "
    ++ String.mk (item.data.content.data.take 300) ++
    "...\n                </div>\n            </div>\n            "

/-- The `no-changes` block (lines 212-218) before its headline. -/
def noChangesPre : String :=
  "\n        <div class=\"no-changes\">\n            <div style=\"font-size: 48px;\">✨</div>\n            <h2>"

/-- The `no-changes` block after its headline. -/
def noChangesPost : String :=
  "</h2>\n            <p>All monitored competitors remain unchanged from last week.</p>\n        </div>\n        "

/-- The closing footer (lines 220-226). -/
def footerBlock : String :=
  "\n        <div style=\"margin-top: 40px; padding-top: 20px; border-top: 2px solid #e2e8f0; text-align: center; color: #718096; font-size: 12px;\">\n            <p><strong>Monitored:</strong> Booking.com • Expedia • Trip.com • Trivago • Airbnb • Agoda • eDreams ODIGEO • Kayak</p>\n        </div>\n    </body>\n    </html>\n    "

/-- The part of the payload between header and footer: the summary plus
the per-entity blocks when `has_changes` holds (lines 171-210), the
no-changes state otherwise (lines 211-218).  `has_changes` is
`len(deltas['new']) > 0 or len(deltas['updated']) > 0`. -/
def detailBlocks (deltas : Deltas) : String :=
  if 0 < deltas.new.length ∨ 0 < deltas.updated.length then
    summaryBlock deltas ++ String.join (deltas.new.map newBlock) ++
      String.join (deltas.updated.map updatedBlock)
  else noChangesPre ++ "No New Intelligence This Week" ++ noChangesPost

/-- `format_email_html(deltas, report_date)` (lines 142-228). -/
def format_email_html (deltas : Deltas) (report_date : String) : String :=
  htmlHead ++ "Week of " ++ report_date ++ htmlAfterDate ++
    detailBlocks deltas ++ footerBlock

/-- Substring test over character lists, used to state what the rendered
payload contains. -/
def containsSub (pat : List Char) : List Char → Bool
  | [] => pat.isPrefixOf []
  | c :: rest => pat.isPrefixOf (c :: rest) || containsSub pat rest

/-- Substring test on `String`. -/
def strContains (pat s : String) : Bool :=
  containsSub pat.data s.data

/-! ### Association-list lemmas for `dictInsert` and `lookup?` -/

theorem keys_update_eq (d : List (String × CompetitorData)) (k : String)
    (v : CompetitorData) :
    (d.map (fun p => if p.1 == k then (k, v) else p)).map Prod.fst
      = d.map Prod.fst := by
  rw [List.map_map]
  apply List.map_congr_left
  intro p _
  by_cases h : p.1 = k
  · simp [h]
  · simp [h]

theorem mem_keys_dictInsert (d : List (String × CompetitorData)) (k : String)
    (v : CompetitorData) (a : String) :
    a ∈ (dictInsert d k v).map Prod.fst ↔ a ∈ d.map Prod.fst ∨ a = k := by
  unfold dictInsert
  by_cases h : d.any (fun p => p.1 == k) = true
  · rw [if_pos h, keys_update_eq]
    obtain ⟨p, hp, hpk⟩ := List.any_eq_true.mp h
    have hk : k ∈ d.map Prod.fst := by
      rw [beq_iff_eq] at hpk
      exact hpk ▸ List.mem_map.mpr ⟨p, hp, rfl⟩
    constructor
    · exact Or.inl
    · rintro (ha | rfl)
      · exact ha
      · exact hk
  · rw [if_neg h]
    simp [List.mem_append]

theorem nodup_keys_dictInsert (d : List (String × CompetitorData)) (k : String)
    (v : CompetitorData) (h : (d.map Prod.fst).Nodup) :
    ((dictInsert d k v).map Prod.fst).Nodup := by
  unfold dictInsert
  by_cases hc : d.any (fun p => p.1 == k) = true
  · rw [if_pos hc, keys_update_eq]; exact h
  · rw [if_neg hc]
    have hk : k ∉ d.map Prod.fst := by
      intro hmem
      obtain ⟨p, hp, hpk⟩ := List.mem_map.mp hmem
      exact hc (List.any_eq_true.mpr ⟨p, hp, by simp [hpk]⟩)
    rw [List.map_append, List.nodup_append]
    refine ⟨h, by simp, ?_⟩
    intro a ha hmem
    simp at hmem
    exact hk (hmem ▸ ha)

theorem find?_update_self (d : List (String × CompetitorData)) (k : String)
    (v : CompetitorData) (h : d.any (fun p => p.1 == k) = true) :
    (d.map (fun p => if p.1 == k then (k, v) else p)).find?
        (fun p => p.1 == k) = some (k, v) := by
  induction d with
  | nil => simp at h
  | cons p t ih =>
    rw [List.map_cons]
    by_cases hp : p.1 = k
    · rw [if_pos (by simpa using hp), List.find?_cons_of_pos _ (by simp)]
    · rw [if_neg (by simpa using hp),
        List.find?_cons_of_neg _ (by simpa using hp)]
      exact ih (by simpa [List.any_cons, hp] using h)

theorem find?_update_ne (d : List (String × CompetitorData)) (k : String)
    (v : CompetitorData) (k' : String) (h : ¬ k' = k) :
    (d.map (fun p => if p.1 == k then (k, v) else p)).find?
        (fun p => p.1 == k') = d.find? (fun p => p.1 == k') := by
  induction d with
  | nil => rfl
  | cons p t ih =>
    rw [List.map_cons]
    by_cases hp : p.1 = k
    · have hp' : ¬ p.1 = k' := by rw [hp]; exact fun hkk => h hkk.symm
      rw [if_pos (by simpa using hp),
        List.find?_cons_of_neg _ (by simpa using fun hkk => h hkk.symm),
        List.find?_cons_of_neg _ (by simpa using hp'), ih]
    · by_cases hp' : p.1 = k'
      · rw [if_neg (by simpa using hp), List.find?_cons_of_pos _ (by simpa using hp'),
          List.find?_cons_of_pos _ (by simpa using hp')]
      · rw [if_neg (by simpa using hp),
          List.find?_cons_of_neg _ (by simpa using hp'),
          List.find?_cons_of_neg _ (by simpa using hp'), ih]

theorem lookup?_dictInsert_self (d : List (String × CompetitorData))
    (k : String) (v : CompetitorData) :
    lookup? (dictInsert d k v) k = some v := by
  unfold dictInsert lookup?
  by_cases hc : d.any (fun p => p.1 == k) = true
  · rw [if_pos hc, find?_update_self d k v hc]; rfl
  · rw [if_neg hc]
    have hnone : d.find? (fun p => p.1 == k) = none := by
      rw [List.find?_eq_none]
      intro p hp hpk
      exact hc (List.any_eq_true.mpr ⟨p, hp, hpk⟩)
    rw [List.find?_append, hnone]
    simp [List.find?]

theorem lookup?_dictInsert_ne (d : List (String × CompetitorData))
    (k : String) (v : CompetitorData) (k' : String) (h : ¬ k' = k) :
    lookup? (dictInsert d k v) k' = lookup? d k' := by
  unfold dictInsert lookup?
  by_cases hc : d.any (fun p => p.1 == k) = true
  · rw [if_pos hc, find?_update_ne d k v k' h]
  · rw [if_neg hc, List.find?_append]
    have hk : ¬ k = k' := fun hkk => h hkk.symm
    cases hd : d.find? (fun p => p.1 == k') with
    | some p => rfl
    | none =>
      have hb : (k == k') = false := by simpa using hk
      simp [List.find?, hb]

theorem lookup?_of_mem (d : List (String × CompetitorData))
    (h : (d.map Prod.fst).Nodup) (kv : String × CompetitorData)
    (hm : kv ∈ d) : lookup? d kv.1 = some kv.2 := by
  induction d with
  | nil => simp at hm
  | cons p t ih =>
    rcases List.mem_cons.mp hm with rfl | hm'
    · unfold lookup?
      rw [List.find?_cons_of_pos _ (by simp)]
      rfl
    · have hne : ¬ p.1 = kv.1 := by
        intro hpk
        have h1 : p.1 ∉ t.map Prod.fst := (List.nodup_cons.mp (by simpa using h)).1
        exact h1 (hpk ▸ List.mem_map.mpr ⟨kv, hm', rfl⟩)
      have ht : (t.map Prod.fst).Nodup := (List.nodup_cons.mp (by simpa using h)).2
      unfold lookup? at ih ⊢
      rw [List.find?_cons_of_neg _ (by simpa using hne)]
      exact ih ht hm'

/-! ### Structure of the extraction fold -/

theorem nodup_keys_foldl (ps : List (String × String))
    (d : List (String × CompetitorData)) (h : (d.map Prod.fst).Nodup) :
    ((ps.foldl extractStep d).map Prod.fst).Nodup := by
  induction ps generalizing d with
  | nil => exact h
  | cons sec t ih =>
    rw [List.foldl_cons]
    apply ih
    unfold extractStep
    by_cases hq : qualifies sec = true
    · rw [if_pos hq]; exact nodup_keys_dictInsert _ _ _ h
    · rw [if_neg hq]; exact h

theorem nodup_keys_extract (r : String) :
    ((extract_competitor_updates r).map Prod.fst).Nodup :=
  nodup_keys_foldl _ [] (by simp)

theorem mem_keys_foldl (ps : List (String × String))
    (d : List (String × CompetitorData)) (k : String) :
    k ∈ (ps.foldl extractStep d).map Prod.fst ↔
      (k ∈ d.map Prod.fst ∨
        ∃ sec, sec ∈ ps ∧ qualifies sec = true ∧ pyStripS sec.1 = k) := by
  induction ps generalizing d with
  | nil => simp
  | cons sec t ih =>
    rw [List.foldl_cons, ih]
    unfold extractStep
    by_cases hq : qualifies sec = true
    · rw [if_pos hq, mem_keys_dictInsert]
      constructor
      · rintro ((hd | rfl) | ⟨s, hs, hqs, hn⟩)
        · exact Or.inl hd
        · exact Or.inr ⟨sec, List.mem_cons_self sec t, hq, rfl⟩
        · exact Or.inr ⟨s, List.mem_cons_of_mem _ hs, hqs, hn⟩
      · rintro (hd | ⟨s, hs, hqs, hn⟩)
        · exact Or.inl (Or.inl hd)
        · rcases List.mem_cons.mp hs with rfl | hs'
          · exact Or.inl (Or.inr hn.symm)
          · exact Or.inr ⟨s, hs', hqs, hn⟩
    · rw [if_neg hq]
      constructor
      · rintro (hd | ⟨s, hs, hqs, hn⟩)
        · exact Or.inl hd
        · exact Or.inr ⟨s, List.mem_cons_of_mem _ hs, hqs, hn⟩
      · rintro (hd | ⟨s, hs, hqs, hn⟩)
        · exact Or.inl hd
        · rcases List.mem_cons.mp hs with rfl | hs'
          · exact absurd hqs hq
          · exact Or.inr ⟨s, hs', hqs, hn⟩

theorem lookup?_foldl_extract (ps : List (String × String))
    (d : List (String × CompetitorData)) (k : String) :
    lookup? (ps.foldl extractStep d) k =
      match (ps.filter
          (fun q => qualifies q && (pyStripS q.1 == k))).getLast? with
      | some sec => some (recordOf sec)
      | none => lookup? d k := by
  induction ps generalizing d with
  | nil => rfl
  | cons sec t ih =>
    rw [List.foldl_cons, ih]
    by_cases hq : qualifies sec = true
    · by_cases hk : pyStripS sec.1 = k
      · rw [List.filter_cons_of_pos (by simp [hq, hk])]
        cases hft : t.filter (fun q => qualifies q && (pyStripS q.1 == k)) with
        | nil =>
          show lookup? (extractStep d sec) k = some (recordOf sec)
          unfold extractStep
          rw [if_pos hq, ← hk]
          exact lookup?_dictInsert_self _ _ _
        | cons q l =>
          rw [List.getLast?_cons_cons]
          cases hx : (q :: l).getLast? with
          | none => exact absurd (List.getLast?_eq_none_iff.mp hx) (by simp)
          | some x => rfl
      · rw [List.filter_cons_of_neg (by simp [hk])]
        cases hft : t.filter (fun q => qualifies q && (pyStripS q.1 == k)) with
        | nil =>
          show lookup? (extractStep d sec) k = lookup? d k
          unfold extractStep
          rw [if_pos hq]
          exact lookup?_dictInsert_ne _ _ _ _ (fun hkk => hk hkk.symm)
        | cons q l => rfl
    · rw [List.filter_cons_of_neg (by simp [hq])]
      cases hft : t.filter (fun q => qualifies q && (pyStripS q.1 == k)) with
      | nil =>
        show lookup? (extractStep d sec) k = lookup? d k
        unfold extractStep
        rw [if_neg hq]
      | cons q l => rfl

/-! ### The extracted feature string is never empty -/

theorem featBracket_ne_nil (cs g : List Char) (h : featBracket cs = some g) :
    g ≠ [] := by
  unfold featBracket at h
  split at h
  · split at h
    · cases h; simp
    · rename_i hc
      cases h
      simpa [List.isEmpty_iff] using hc
  · split at h
    · exact Option.noConfusion h
    · rename_i hc
      cases h
      simpa [List.isEmpty_iff] using hc

theorem featAfterSpaces_ne_nil (cs g : List Char)
    (h : featAfterSpaces cs = some g) : g ≠ [] := by
  induction cs with
  | nil => exact featBracket_ne_nil _ _ h
  | cons c rest ih =>
    unfold featAfterSpaces at h
    by_cases hs : isPySpace c = true
    · rw [if_pos hs] at h
      cases hr : featAfterSpaces rest with
      | some cap =>
        rw [hr] at h
        cases h
        exact ih hr
      | none =>
        rw [hr] at h
        exact featBracket_ne_nil _ _ h
    · rw [if_neg hs] at h
      exact featBracket_ne_nil _ _ h

theorem featureSearch_ne_nil (cs g : List Char)
    (h : featureSearch cs = some g) : g ≠ [] := by
  induction cs with
  | nil => exact Option.noConfusion h
  | cons c rest ih =>
    unfold featureSearch at h
    by_cases hp : featLabel.isPrefixOf (c :: rest) = true
    · rw [if_pos hp] at h
      cases ha : featAfterSpaces ((c :: rest).drop featLabel.length) with
      | some cap =>
        rw [ha] at h
        cases h
        exact featAfterSpaces_ne_nil _ _ ha
      | none =>
        rw [ha] at h
        exact ih h
    · rw [if_neg hp] at h
      exact ih h

theorem mk_ne_empty (l : List Char) (h : l ≠ []) : String.mk l ≠ "" := by
  intro he
  exact h (congrArg String.data he)

theorem recordOf_feature_ne_empty (sec : String × String) :
    (recordOf sec).feature ≠ "" := by
  unfold recordOf
  cases h : featureSearch sec.2.data with
  | none => simp
  | some g => exact mk_ne_empty g (featureSearch_ne_nil _ g h)

theorem recordOf_content_length (sec : String × String) :
    (recordOf sec).content.length ≤ 500 := by
  show ((pyStrip sec.2.data).take 500).length ≤ 500
  rw [List.length_take]
  exact min_le_left _ _

/-- Claim C8: for every document, the snapshot's entity names are unique
keys, with the record of the last qualifying occurrence of a repeated
heading winning; every record's excerpt (`content`) is at most 500
characters; and every record's `feature` is non-empty, being the
sentinel `"N/A"` exactly when the `New Feature:` label is absent from the
winning section (the record equals `recordOf` of that section, whose
feature is the sentinel in the `none` case). -/
theorem extract_invariants (r : String) :
    ((extract_competitor_updates r).map Prod.fst).Nodup ∧
    ∀ kv ∈ extract_competitor_updates r,
      kv.2.content.length ≤ 500 ∧ kv.2.feature ≠ "" ∧
      ∃ sec,
        ((sectionPairs (reSplit r)).filter
            (fun q => qualifies q && (pyStripS q.1 == kv.1))).getLast?
          = some sec ∧
        kv.2 = recordOf sec ∧
        (featureSearch sec.2.data = none → kv.2.feature = "N/A") := by
  refine ⟨nodup_keys_extract r, ?_⟩
  intro kv hm
  have hl : lookup? (extract_competitor_updates r) kv.1 = some kv.2 :=
    lookup?_of_mem _ (nodup_keys_extract r) kv hm
  rw [show extract_competitor_updates r
        = (sectionPairs (reSplit r)).foldl extractStep [] from rfl,
    lookup?_foldl_extract] at hl
  cases hg : ((sectionPairs (reSplit r)).filter
      (fun q => qualifies q && (pyStripS q.1 == kv.1))).getLast? with
  | none =>
    rw [hg] at hl
    simp [lookup?] at hl
  | some sec =>
    rw [hg] at hl
    have hrec : recordOf sec = kv.2 := Option.some.inj hl
    refine ⟨hrec ▸ recordOf_content_length sec,
      hrec ▸ recordOf_feature_ne_empty sec, sec, rfl, hrec.symm, ?_⟩
    intro hn
    rw [← hrec]
    unfold recordOf
    rw [hn]

/-- Claim C6: a heading/body section contributes its (stripped) name to
the snapshot if and only if its body matches the `New Feature:` labeled
field or its name is in the `COMPETITORS` allowlist; a section with
neither is absent from the snapshot.  Extraction is a total function, so
a dropped section causes no error. -/
theorem section_inclusion_iff (r : String) (k : String) :
    k ∈ (extract_competitor_updates r).map Prod.fst ↔
      ∃ sec, sec ∈ sectionPairs (reSplit r) ∧ pyStripS sec.1 = k ∧
        ((featureSearch sec.2.data).isSome = true ∨ k ∈ COMPETITORS) := by
  rw [show extract_competitor_updates r
        = (sectionPairs (reSplit r)).foldl extractStep [] from rfl,
    mem_keys_foldl]
  simp only [List.map_nil, List.not_mem_nil, false_or]
  constructor
  · rintro ⟨sec, hs, hq, hn⟩
    refine ⟨sec, hs, hn, ?_⟩
    unfold qualifies at hq
    have hq' : (featureSearch sec.2.data).isSome = true ∨
        pyStripS sec.1 ∈ COMPETITORS := by simpa using hq
    rcases hq' with h1 | h2
    · exact Or.inl h1
    · exact Or.inr (hn ▸ h2)
  · rintro ⟨sec, hs, hn, hcond⟩
    refine ⟨sec, hs, ?_, hn⟩
    unfold qualifies
    rcases hcond with h1 | h2
    · simp [h1]
    · simp [hn, h2]

/-! ### Structure of the classification fold -/

theorem classify_foldl (p : List (String × CompetitorData))
    (l : List (String × CompetitorData)) (ds : Deltas) :
    l.foldl (classifyStep p) ds =
      ⟨ds.new ++ (l.filter fun kv => (lookup? p kv.1).isNone).map
          (fun kv => ⟨kv.1, kv.2⟩),
       ds.updated ++ l.filterMap (fun kv =>
         match lookup? p kv.1 with
         | none => none
         | some pd =>
           if kv.2.feature ≠ pd.feature then some ⟨kv.1, kv.2, pd.feature⟩
           else none),
       ds.unchanged ++ l.filterMap (fun kv =>
         match lookup? p kv.1 with
         | none => none
         | some pd =>
           if kv.2.feature ≠ pd.feature then none else some kv.1)⟩ := by
  induction l generalizing ds with
  | nil => simp
  | cons kv t ih =>
    rw [List.foldl_cons, ih]
    unfold classifyStep
    cases h : lookup? p kv.1 with
    | none =>
      simp [List.filter_cons, List.filterMap_cons, h, List.append_assoc]
    | some pd =>
      by_cases hf : kv.2.feature = pd.feature
      · simp [List.filter_cons, List.filterMap_cons, h, hf,
          List.append_assoc]
      · simp [List.filter_cons, List.filterMap_cons, h, hf,
          List.append_assoc]

theorem extract_empty : extract_competitor_updates "" = [] := rfl

theorem filterMap_eq_map_of_forall
    {α β : Type} (l : List α) (f : α → Option β) (g : α → β)
    (h : ∀ x ∈ l, f x = some (g x)) : l.filterMap f = l.map g := by
  induction l with
  | nil => rfl
  | cons a t ih =>
    simp [List.filterMap_cons, h a (List.mem_cons_self a t),
      ih (fun x hx => h x (List.mem_cons_of_mem _ hx))]

theorem filterMap_sublist_map_fst (l : List (String × CompetitorData))
    (g : String × CompetitorData → Option String)
    (h : ∀ kv, g kv = none ∨ g kv = some kv.1) :
    (l.filterMap g).Sublist (l.map Prod.fst) := by
  induction l with
  | nil => simp
  | cons kv t ih =>
    rw [List.filterMap_cons, List.map_cons]
    rcases h kv with h1 | h1
    · rw [h1]; exact ih.cons _
    · rw [h1]; exact ih.cons₂ _

theorem classify_names_sublist (p : List (String × CompetitorData))
    (l : List (String × CompetitorData)) :
    ((l.foldl (classifyStep p) ⟨[], [], []⟩).new.map
        DeltaItem.competitor).Sublist (l.map Prod.fst) ∧
    ((l.foldl (classifyStep p) ⟨[], [], []⟩).updated.map
        UpdatedItem.competitor).Sublist (l.map Prod.fst) ∧
    (l.foldl (classifyStep p) ⟨[], [], []⟩).unchanged.Sublist
        (l.map Prod.fst) := by
  rw [classify_foldl]
  refine ⟨?_, ?_, ?_⟩
  · simp only [List.nil_append, List.map_map]
    exact List.Sublist.map _ (List.filter_sublist l)
  · simp only [List.nil_append, List.map_filterMap]
    apply filterMap_sublist_map_fst
    intro kv
    cases lookup? p kv.1 with
    | none => exact Or.inl rfl
    | some pd =>
      by_cases hf : kv.2.feature = pd.feature
      · simp [hf]
      · simp [hf]
  · simp only [List.nil_append]
    apply filterMap_sublist_map_fst
    intro kv
    cases lookup? p kv.1 with
    | none => exact Or.inl rfl
    | some pd =>
      by_cases hf : kv.2.feature = pd.feature
      · simp [hf]
      · simp [hf]

/-- Claim C5: with an empty previous report (first-ever run), every entity
of the current snapshot is classified as New, in snapshot order, and the
updated and unchanged buckets are empty. -/
theorem classify_first_run (cur : String) :
    detect_deltas cur "" =
      ⟨(extract_competitor_updates cur).map (fun kv => ⟨kv.1, kv.2⟩),
        [], []⟩ := by
  unfold detect_deltas
  rw [if_neg (by simp), classify_foldl]
  simp only [Deltas.mk.injEq, List.nil_append]
  refine ⟨?_, ?_, ?_⟩
  · congr 1
    apply List.filter_eq_self.mpr
    intro kv _
    rfl
  · exact List.filterMap_eq_nil_iff.mpr (fun kv _ => rfl)
  · exact List.filterMap_eq_nil_iff.mpr (fun kv _ => rfl)

/-- Claim C4: comparing a (non-empty-snapshot) report against itself
yields no New and no Updated entities, and Unchanged holds exactly the
names of the snapshot, in order. -/
theorem classify_self_comparison (r : String)
    (h : extract_competitor_updates r ≠ []) :
    (detect_deltas r r).new = [] ∧ (detect_deltas r r).updated = [] ∧
    (detect_deltas r r).unchanged
      = (extract_competitor_updates r).map Prod.fst := by
  have hr : r ≠ "" := by
    intro he
    exact h (he ▸ extract_empty)
  have hmem : ∀ kv ∈ extract_competitor_updates r,
      lookup? (extract_competitor_updates r) kv.1 = some kv.2 :=
    fun kv hm => lookup?_of_mem _ (nodup_keys_extract r) kv hm
  unfold detect_deltas
  rw [if_pos hr, classify_foldl]
  refine ⟨?_, ?_, ?_⟩
  · show [] ++ _ = ([] : List DeltaItem)
    rw [List.nil_append,
      List.filter_eq_nil_iff.mpr (fun kv hm => by simp [hmem kv hm]),
      List.map_nil]
  · show [] ++ _ = ([] : List UpdatedItem)
    rw [List.nil_append]
    apply List.filterMap_eq_nil_iff.mpr
    intro kv hm
    rw [hmem kv hm]
    simp
  · show [] ++ _ = _
    rw [List.nil_append]
    apply filterMap_eq_map_of_forall
    intro kv hm
    rw [hmem kv hm]
    simp

/-- Claim C7: the names in the New and Unchanged buckets form
order-preserving subsequences of the current snapshot's key sequence,
i.e. they appear in the same relative order as the corresponding entities
appear in the current source document. -/
theorem classify_order_preservation (cur prev : String) :
    ((detect_deltas cur prev).new.map DeltaItem.competitor).Sublist
        ((extract_competitor_updates cur).map Prod.fst) ∧
    (detect_deltas cur prev).unchanged.Sublist
        ((extract_competitor_updates cur).map Prod.fst) := by
  unfold detect_deltas
  obtain ⟨hn, _, hc⟩ := classify_names_sublist
    (if prev ≠ "" then extract_competitor_updates prev else [])
    (extract_competitor_updates cur)
  exact ⟨hn, hc⟩

/-- Claim C9: an entity present in the previous snapshot but absent from
the current snapshot appears in none of the three buckets of the result
(removal is not a tracked delta category). -/
theorem removed_entities_unreported (cur prev : String) (k : String)
    (_h1 : k ∈ (extract_competitor_updates prev).map Prod.fst)
    (h2 : k ∉ (extract_competitor_updates cur).map Prod.fst) :
    k ∉ (detect_deltas cur prev).new.map DeltaItem.competitor ∧
    k ∉ (detect_deltas cur prev).updated.map UpdatedItem.competitor ∧
    k ∉ (detect_deltas cur prev).unchanged := by
  unfold detect_deltas
  obtain ⟨hn, hu, hc⟩ := classify_names_sublist
    (if prev ≠ "" then extract_competitor_updates prev else [])
    (extract_competitor_updates cur)
  exact ⟨fun hm => h2 (hn.subset hm), fun hm => h2 (hu.subset hm),
    fun hm => h2 (hc.subset hm)⟩

theorem classify_length (p : List (String × CompetitorData))
    (l : List (String × CompetitorData)) (ds : Deltas) :
    (l.foldl (classifyStep p) ds).new.length
      + (l.foldl (classifyStep p) ds).updated.length
      + (l.foldl (classifyStep p) ds).unchanged.length
      = ds.new.length + ds.updated.length + ds.unchanged.length
        + l.length := by
  induction l generalizing ds with
  | nil => simp
  | cons kv t ih =>
    rw [List.foldl_cons, ih]
    unfold classifyStep
    cases h : lookup? p kv.1 with
    | none => simp; omega
    | some pd =>
      by_cases hf : kv.2.feature = pd.feature
      · simp [hf]; omega
      · simp [hf]; omega

theorem classify_count (p : List (String × CompetitorData))
    (l : List (String × CompetitorData)) (ds : Deltas) (k : String) :
    ((l.foldl (classifyStep p) ds).new.map DeltaItem.competitor).count k
      + ((l.foldl (classifyStep p) ds).updated.map
          UpdatedItem.competitor).count k
      + (l.foldl (classifyStep p) ds).unchanged.count k
      = (ds.new.map DeltaItem.competitor).count k
        + (ds.updated.map UpdatedItem.competitor).count k
        + ds.unchanged.count k + (l.map Prod.fst).count k := by
  induction l generalizing ds with
  | nil => simp
  | cons kv t ih =>
    rw [List.foldl_cons, ih]
    unfold classifyStep
    by_cases hk : kv.1 = k
    · cases h : lookup? p kv.1 with
      | none =>
        simp [List.count_cons, hk]
        omega
      | some pd =>
        by_cases hf : kv.2.feature = pd.feature
        · simp [hf, List.count_cons, hk]; omega
        · simp [hf, List.count_cons, hk]; omega
    · cases h : lookup? p kv.1 with
      | none =>
        simp [List.count_cons, hk]
      | some pd =>
        by_cases hf : kv.2.feature = pd.feature
        · simp [hf, List.count_cons, hk]
        · simp [hf, List.count_cons, hk]

/-- Claim C10: every entity name of the current snapshot lands in exactly
one of the three buckets (its names occur once in total across them), so
the bucket sizes sum to the snapshot size. -/
theorem classify_partition (cur prev : String) :
    ((detect_deltas cur prev).new.length
        + (detect_deltas cur prev).updated.length
        + (detect_deltas cur prev).unchanged.length
      = (extract_competitor_updates cur).length) ∧
    ∀ k ∈ (extract_competitor_updates cur).map Prod.fst,
      ((detect_deltas cur prev).new.map DeltaItem.competitor).count k
        + ((detect_deltas cur prev).updated.map
            UpdatedItem.competitor).count k
        + (detect_deltas cur prev).unchanged.count k = 1 := by
  unfold detect_deltas
  constructor
  · rw [classify_length]
    simp
  · intro k hk
    rw [classify_count]
    simp only [List.map_nil, List.count_nil, Nat.zero_add]
    exact List.count_eq_one_of_mem (nodup_keys_extract cur) hk

/-! ### Substring lemmas for the renderer -/

theorem isPrefixOf_append_self (p t : List Char) :
    p.isPrefixOf (p ++ t) = true := by
  induction p with
  | nil => cases t <;> rfl
  | cons a as ih =>
    show (a == a && List.isPrefixOf as (as ++ t)) = true
    simp [ih]

theorem isPrefixOf_append_of (p s t : List Char)
    (h : p.isPrefixOf s = true) : p.isPrefixOf (s ++ t) = true := by
  induction p generalizing s with
  | nil =>
    cases s with
    | nil => cases t <;> rfl
    | cons b bs => rfl
  | cons a as ih =>
    cases s with
    | nil => exact absurd h (by simp [List.isPrefixOf])
    | cons b bs =>
      have h2 : (a == b && List.isPrefixOf as bs) = true := h
      rw [Bool.and_eq_true] at h2
      show (a == b && List.isPrefixOf as (bs ++ t)) = true
      simp [h2.1, ih bs h2.2]

theorem containsSub_of_isPrefixOf (p s : List Char)
    (h : p.isPrefixOf s = true) : containsSub p s = true := by
  cases s with
  | nil => exact h
  | cons c rest => simp [containsSub, h]

theorem containsSub_self_append (p t : List Char) :
    containsSub p (p ++ t) = true :=
  containsSub_of_isPrefixOf _ _ (isPrefixOf_append_self p t)

theorem containsSub_cons (p : List Char) (c : Char) (s : List Char)
    (h : containsSub p s = true) : containsSub p (c :: s) = true := by
  simp [containsSub, h]

theorem containsSub_append_left (p a s : List Char)
    (h : containsSub p s = true) : containsSub p (a ++ s) = true := by
  induction a with
  | nil => exact h
  | cons c t ih => exact containsSub_cons p c _ ih

theorem containsSub_append_right (p s t : List Char)
    (h : containsSub p s = true) : containsSub p (s ++ t) = true := by
  induction s with
  | nil =>
    cases p with
    | nil => cases t <;> rfl
    | cons a as => exact Bool.noConfusion h
  | cons c rest ih =>
    unfold containsSub at h
    by_cases hp : p.isPrefixOf (c :: rest) = true
    · exact containsSub_of_isPrefixOf _ _
        (isPrefixOf_append_of p (c :: rest) t hp)
    · simp only [hp, Bool.false_or] at h
      show containsSub p (c :: (rest ++ t)) = true
      unfold containsSub
      simp [ih h]

theorem strContains_self_append (p t : String) :
    strContains p (p ++ t) = true := by
  unfold strContains
  rw [String.data_append]
  exact containsSub_self_append _ _

theorem strContains_split (a b t : String) :
    strContains (a ++ b) (a ++ (b ++ t)) = true := by
  unfold strContains
  rw [String.data_append, String.data_append, String.data_append,
    ← List.append_assoc]
  exact containsSub_self_append _ _

theorem strContains_append_left (p a s : String)
    (h : strContains p s = true) : strContains p (a ++ s) = true := by
  unfold strContains at h ⊢
  rw [String.data_append]
  exact containsSub_append_left _ _ _ h

theorem strContains_append_right (p s t : String)
    (h : strContains p s = true) : strContains p (s ++ t) = true := by
  unfold strContains at h ⊢
  rw [String.data_append]
  exact containsSub_append_right _ _ _ h

set_option maxRecDepth 40000 in
/-- Claim C3 counterexample: when the New and Updated buckets are both
empty, the rendered payload does not contain the New-entity count — the
summary line with the labelled counts is omitted and the no-changes state
is rendered instead.  (Containing "a count" is read as containing the
labelled count text the summary renders, e.g. `New Updates: 0`; a bare
digit `0` occurs in the style sheet of every payload, so the bare-digit
reading would make the claim vacuous.) -/
theorem render_counts_counterexample :
    strContains
        ("New Updates: " ++ toString (Deltas.mk [] [] []).new.length)
        (format_email_html ⟨[], [], []⟩ "March 3, 2025") = false := by
  decide

set_option maxRecDepth 40000 in
/-- Claim C3 (amended): the rendered payload always contains the
`periodLabel` verbatim (interpolated after `Week of `), and contains the
three labelled counts whenever New or Updated is non-empty; when both are
empty it renders the single no-changes state (whose headline is `No New
Intelligence This Week`) in place of the summary and detail blocks, and —
as the counterexample shows — the counts are then absent. -/
theorem render_counts_amended (deltas : Deltas) (report_date : String) :
    strContains ("Week of " ++ report_date)
        (format_email_html deltas report_date) = true ∧
    (0 < deltas.new.length ∨ 0 < deltas.updated.length →
      strContains ("New Updates: " ++ toString deltas.new.length)
          (format_email_html deltas report_date) = true ∧
      strContains ("Feature Changes: " ++ toString deltas.updated.length)
          (format_email_html deltas report_date) = true ∧
      strContains ("Unchanged: " ++ toString deltas.unchanged.length)
          (format_email_html deltas report_date) = true) ∧
    (deltas.new = [] ∧ deltas.updated = [] →
      strContains "No New Intelligence This Week"
          (format_email_html deltas report_date) = true) := by
  refine ⟨?_, ?_, ?_⟩
  · unfold format_email_html
    simp only [String.append_assoc]
    apply strContains_append_left
    exact strContains_split "Week of " report_date _
  · intro h
    have hd : detailBlocks deltas = summaryBlock deltas ++
        (String.join (deltas.new.map newBlock) ++
          String.join (deltas.updated.map updatedBlock)) := by
      unfold detailBlocks
      rw [if_pos h, String.append_assoc]
    refine ⟨?_, ?_, ?_⟩
    · unfold format_email_html
      simp only [String.append_assoc]
      apply strContains_append_left
      apply strContains_append_left
      apply strContains_append_left
      apply strContains_append_left
      apply strContains_append_right
      rw [hd]
      apply strContains_append_right
      unfold summaryBlock
      simp only [String.append_assoc]
      apply strContains_append_left
      exact strContains_split "New Updates: " _ _
    · unfold format_email_html
      simp only [String.append_assoc]
      apply strContains_append_left
      apply strContains_append_left
      apply strContains_append_left
      apply strContains_append_left
      apply strContains_append_right
      rw [hd]
      apply strContains_append_right
      unfold summaryBlock
      simp only [String.append_assoc]
      apply strContains_append_left
      apply strContains_append_left
      apply strContains_append_left
      apply strContains_append_left
      exact strContains_split "Feature Changes: " _ _
    · unfold format_email_html
      simp only [String.append_assoc]
      apply strContains_append_left
      apply strContains_append_left
      apply strContains_append_left
      apply strContains_append_left
      apply strContains_append_right
      rw [hd]
      apply strContains_append_right
      unfold summaryBlock
      simp only [String.append_assoc]
      apply strContains_append_left
      apply strContains_append_left
      apply strContains_append_left
      apply strContains_append_left
      apply strContains_append_left
      apply strContains_append_left
      apply strContains_append_left
      exact strContains_split "Unchanged: " _ _
  · intro h
    have hd : detailBlocks deltas =
        noChangesPre ++ ("No New Intelligence This Week" ++ noChangesPost) := by
      unfold detailBlocks
      rw [if_neg (by simp [h.1, h.2]), String.append_assoc]
    unfold format_email_html
    simp only [String.append_assoc]
    apply strContains_append_left
    apply strContains_append_left
    apply strContains_append_left
    apply strContains_append_left
    apply strContains_append_right
    rw [hd]
    apply strContains_append_left
    exact strContains_self_append _ _

/-- Claim C1 (code bug): the section pattern `##\s+\*\*?([^*#\n]+)\*\*?`
requires at least one emphasis asterisk after the heading marker, so the
plain heading `## Kayak` never matches and its document yields an empty
snapshot, while the emphasized `## **Kayak**` yields the Kayak record —
plain and emphasized headings do not parse into the same record.  The
program's own prompt template (line 53) requests plain
`## [Competitor Name]` headings, which this splitter can never match. -/
theorem extract_requires_heading_emphasis :
    extract_competitor_updates
        "## Kayak\n**New Feature:** [AI trip planner]\nBody text." = [] ∧
    extract_competitor_updates
        "## **Kayak**\n**New Feature:** [AI trip planner]\nBody text." =
      [("Kayak", ⟨"AI trip planner",
        "**New Feature:** [AI trip planner]\nBody text."⟩)] :=
  ⟨by decide, by decide⟩

/-- Claim C2 counterexample: on Scenario A's document the single record's
excerpt is the whole stripped section body (feature line included), not
`"Body text."` as the claim states, so the claimed snapshot is not what
`extract_competitor_updates` produces. -/
theorem scenarioA_counterexample :
    ¬ (extract_competitor_updates
        "## **Kayak**\n**New Feature:** [AI trip planner]\nBody text." =
      [("Kayak", ⟨"AI trip planner", "Body text."⟩)]) := by
  decide

/-- Claim C2 (amended): Scenario A's document yields exactly one record,
named `Kayak` with featureSummary `AI trip planner`, whose excerpt is the
trimmed section body `**New Feature:** [AI trip planner]\nBody text.`
(the excerpt keeps the feature line rather than being just `Body text.`),
and with an empty previous report `detect_deltas` places exactly that
record in the New bucket. -/
theorem scenarioA_amended :
    extract_competitor_updates
        "## **Kayak**\n**New Feature:** [AI trip planner]\nBody text." =
      [("Kayak", ⟨"AI trip planner",
        "**New Feature:** [AI trip planner]\nBody text."⟩)] ∧
    detect_deltas
        "## **Kayak**\n**New Feature:** [AI trip planner]\nBody text." "" =
      ⟨[⟨"Kayak", ⟨"AI trip planner",
          "**New Feature:** [AI trip planner]\nBody text."⟩⟩], [], []⟩ :=
  ⟨by decide, by decide⟩

/-- Witness for C4, applied to Scenario A's document compared against
itself. -/
theorem classify_self_comparison_witness :
    (extract_competitor_updates
        "## **Kayak**\n**New Feature:** [AI trip planner]\nBody text."
      ≠ []) ∧
    ((detect_deltas
        "## **Kayak**\n**New Feature:** [AI trip planner]\nBody text."
        "## **Kayak**\n**New Feature:** [AI trip planner]\nBody text.").new
      = [] ∧
    (detect_deltas
        "## **Kayak**\n**New Feature:** [AI trip planner]\nBody text."
        "## **Kayak**\n**New Feature:** [AI trip planner]\nBody text.").updated
      = [] ∧
    (detect_deltas
        "## **Kayak**\n**New Feature:** [AI trip planner]\nBody text."
        "## **Kayak**\n**New Feature:** [AI trip planner]\nBody text.").unchanged
      = (extract_competitor_updates
        "## **Kayak**\n**New Feature:** [AI trip planner]\nBody text.").map
          Prod.fst) :=
  ⟨by decide, classify_self_comparison _ (by decide)⟩

/-- Witness for C8, applied to the Kayak record extracted from Scenario
A's document. -/
theorem extract_invariants_witness :
    (("Kayak", (⟨"AI trip planner",
        "**New Feature:** [AI trip planner]\nBody text."⟩ : CompetitorData))
      ∈ extract_competitor_updates
        "## **Kayak**\n**New Feature:** [AI trip planner]\nBody text.") ∧
    ((⟨"AI trip planner",
        "**New Feature:** [AI trip planner]\nBody text."⟩ :
          CompetitorData).content.length ≤ 500 ∧
     (⟨"AI trip planner",
        "**New Feature:** [AI trip planner]\nBody text."⟩ :
          CompetitorData).feature ≠ "" ∧
     ∃ sec,
       ((sectionPairs (reSplit
            "## **Kayak**\n**New Feature:** [AI trip planner]\nBody text.")).filter
          (fun q => qualifies q && (pyStripS q.1 == "Kayak"))).getLast?
         = some sec ∧
       (⟨"AI trip planner",
          "**New Feature:** [AI trip planner]\nBody text."⟩ :
            CompetitorData) = recordOf sec ∧
       (featureSearch sec.2.data = none →
         (⟨"AI trip planner",
            "**New Feature:** [AI trip planner]\nBody text."⟩ :
              CompetitorData).feature = "N/A")) :=
  ⟨by decide,
   (extract_invariants
      "## **Kayak**\n**New Feature:** [AI trip planner]\nBody text.").2
     ("Kayak", ⟨"AI trip planner",
        "**New Feature:** [AI trip planner]\nBody text."⟩) (by decide)⟩

/-- Witness for C9: `Kayak` is in the previous snapshot, absent from the
(empty) current one, and lands in no bucket. -/
theorem removed_entities_unreported_witness :
    ("Kayak" ∈ (extract_competitor_updates
        "## **Kayak**\n**New Feature:** [AI trip planner]\nBody text.").map
          Prod.fst) ∧
    ("Kayak" ∉ (extract_competitor_updates "").map Prod.fst) ∧
    ("Kayak" ∉ (detect_deltas ""
        "## **Kayak**\n**New Feature:** [AI trip planner]\nBody text.").new.map
          DeltaItem.competitor ∧
     "Kayak" ∉ (detect_deltas ""
        "## **Kayak**\n**New Feature:** [AI trip planner]\nBody text.").updated.map
          UpdatedItem.competitor ∧
     "Kayak" ∉ (detect_deltas ""
        "## **Kayak**\n**New Feature:** [AI trip planner]\nBody text.").unchanged) :=
  ⟨by decide, by decide,
   removed_entities_unreported ""
     "## **Kayak**\n**New Feature:** [AI trip planner]\nBody text."
     "Kayak" (by decide) (by decide)⟩

/-- Witness for C10 at Scenario A's document with an empty previous
report. -/
theorem classify_partition_witness :
    ("Kayak" ∈ (extract_competitor_updates
        "## **Kayak**\n**New Feature:** [AI trip planner]\nBody text.").map
          Prod.fst) ∧
    (((detect_deltas
          "## **Kayak**\n**New Feature:** [AI trip planner]\nBody text."
          "").new.map DeltaItem.competitor).count "Kayak"
      + ((detect_deltas
          "## **Kayak**\n**New Feature:** [AI trip planner]\nBody text."
          "").updated.map UpdatedItem.competitor).count "Kayak"
      + (detect_deltas
          "## **Kayak**\n**New Feature:** [AI trip planner]\nBody text."
          "").unchanged.count "Kayak" = 1) :=
  ⟨by decide,
   (classify_partition
      "## **Kayak**\n**New Feature:** [AI trip planner]\nBody text." "").2
     "Kayak" (by decide)⟩

set_option maxRecDepth 40000 in
/-- Witness for the amended C3: with one New entity the payload contains
the label and the New count; with empty buckets it contains the no-changes
headline. -/
theorem render_counts_amended_witness :
    (strContains ("Week of " ++ "March 3, 2025")
        (format_email_html
          ⟨[⟨"Kayak", ⟨"AI trip planner", "body"⟩⟩], [], []⟩
          "March 3, 2025") = true) ∧
    (strContains ("New Updates: " ++ toString
        (Deltas.mk [⟨"Kayak", ⟨"AI trip planner", "body"⟩⟩] [] []).new.length)
        (format_email_html
          ⟨[⟨"Kayak", ⟨"AI trip planner", "body"⟩⟩], [], []⟩
          "March 3, 2025") = true) ∧
    (strContains "No New Intelligence This Week"
        (format_email_html ⟨[], [], []⟩ "March 3, 2025") = true) :=
  ⟨(render_counts_amended
      ⟨[⟨"Kayak", ⟨"AI trip planner", "body"⟩⟩], [], []⟩ "March 3, 2025").1,
   ((render_counts_amended
      ⟨[⟨"Kayak", ⟨"AI trip planner", "body"⟩⟩], [], []⟩
      "March 3, 2025").2.1 (Or.inl (by decide))).1,
   (render_counts_amended ⟨[], [], []⟩ "March 3, 2025").2.2 ⟨rfl, rfl⟩⟩
